import Mathlib

/-!
Shallow embedding of the GitHub repository extractor (`src/extractor.py`)
and proofs about its extraction, alignment and serialization behaviour.

The Python program fetches pull requests, issues and commits through the
pygithub API, normalizes their fields, joins them positionally and writes
delimited rows.  Remote records are modelled as Lean structures holding the
fields the extractor reads; paginated lists are modelled as total functions
`Nat → record` (an index access that always succeeds) or as `List`s where the
code indexes a materialized Python list; the rate-limit exception is modelled
by an explicit failure schedule; the uncaught Python `IndexError` is modelled
by `Option`/`Except` failure.  Date fields are carried as already-formatted
strings since no property here depends on `strftime` itself.
-/

namespace Extractor

/-- The sentinel literal `" =||= "` used by the extractor for absent values. -/
def sentinel : String := " =||= "

/-- Column labels of the "commit" output mode (`COMMIT_COL_NAMES`). -/
def COMMIT_COL_NAMES : List String :=
  ["Author_Login", "Committer_login", "PR_Number",
   "SHA", "Commit_Message", "File_name",
   "Patch_text", "Additions", "Deletions",
   "Status", "Changes"]

/-- Column labels of the "pr" output mode (`PR_COL_NAMES`). -/
def PR_COL_NAMES : List String :=
  ["PR_Number", "Issue_Closed_Date", "Issue_Author",
   "Issue_Title", "Issue_Body", "PR_Closed_Date",
   "PR_Author", "PR_Title", "PR_Body", "PR_Comments",
   "Issue_Comments", "Commit_Author", "Commit_Date",
   "Commit_Message", "isPR"]

/-- The fetch bound (`RATE_LIMIT = 5`): every extractor loop and the
row-aggregation loop run their index from 0 up to this constant. -/
def RATE_LIMIT : Nat := 5

/-- Remove the elements satisfying `p` from the front and from the back of a
list, keeping interior elements untouched. -/
def stripEnds (p : Char → Bool) (l : List Char) : List Char :=
  ((l.dropWhile p).reverse.dropWhile p).reverse

/-- Python `str.strip(c)` for a single character `c`: removes leading and
trailing occurrences of `c` only (interior occurrences are kept). -/
def pyStripChar (c : Char) (s : String) : String :=
  String.mk (stripEnds (fun a => a == c) s.data)

/-- Python `str.strip()` (no argument): removes leading and trailing
whitespace. -/
def pyStripSpace (s : String) : String :=
  String.mk (stripEnds (fun a => a.isWhitespace) s.data)

/-- The body normalization applied to PR bodies (extractor.py lines 646-648)
and issue bodies (lines 389-391): `body_str.strip( chr 10 )` followed by
wrapping in literal quote characters. -/
def quoteBody (s : String) : String :=
  "\"" ++ pyStripChar '\n' s ++ "\""

/-- Python `str(n)` on a nonnegative int: the decimal representation. -/
def pyStr (n : Nat) : String :=
  Nat.repr n

/-- The comment-count serialization shared by `get_PR_info` (lines 643,
650-652) and `get_issue_info` (lines 379, 394-396): the count is stringified
and the exact string "0" is replaced with the sentinel. -/
def serializeCommentCount (n : Nat) : String :=
  let s := pyStr n
  if s = "0" then sentinel else s

/-- One cell of a row fragment: Python values appearing in the metalists are
strings, ints, or lists of strings (the commit-mode file list). -/
inductive Field where
  | str : String → Field
  | int : Int → Field
  | strList : List String → Field
deriving DecidableEq, Repr

/-- One file entry of a commit, with the attributes `get_commit_info` reads. -/
structure CommitFile where
  filename : String
  additions : Int
  changes : Int
  patch : String
  deletions : Int
  status : String
deriving DecidableEq, Repr, Inhabited

/-- A commit record with the attributes the extractor reads.  `authorDate`
holds `commit.commit.author.date` already rendered with `TIME_FORM_STR`. -/
structure Commit where
  authorName : String
  message : String
  authorDate : String
  committerName : String
  sha : String
  files : List CommitFile
deriving DecidableEq, Repr, Inhabited

/-- A pull-request record with the attributes `get_PR_info` reads.
`closedAt` holds `closed_at` already rendered with `TIME_FORM_STR`;
`commits` is the PR's own commit list (`cur_pr.get_commits()`), oldest
first as GitHub returns it. -/
structure PR where
  number : Int
  userLogin : String
  body : String
  closedAt : String
  comments : Nat
  title : String
  commits : List Commit
deriving DecidableEq, Repr, Inhabited

/-- An issue record with the attributes `get_issue_info` reads.
`hasPullRequest` models `cur_issue.pull_request is not None`. -/
structure Issue where
  userName : String
  body : String
  comments : Nat
  closedAt : String
  title : String
  hasPullRequest : Bool
deriving DecidableEq, Repr, Inhabited

/-- The value held by the Python variable `most_recent_commit`: either the
string sentinel it is initialized to, or a commit object. -/
inductive CommitRef where
  | sentinel : CommitRef
  | commit : Commit → CommitRef
deriving DecidableEq, Repr, Inhabited

/-- The `pr_info_list` built for one PR (extractor.py lines 634-661):
`[pr_num]` always, extended with author, body (quoted), closed date,
comment count and title when the output type is "pr". -/
def prFragment (outputType : String) (pr : PR) : List Field :=
  if outputType = "pr" then
    [Field.int pr.number,
     Field.str pr.userLogin,
     Field.str (quoteBody pr.body),
     Field.str pr.closedAt,
     Field.str (serializeCommentCount pr.comments),
     Field.str pr.title]
  else
    [Field.int pr.number]

/-- The update of `most_recent_commit` for one PR (lines 668-677):
`last_commit_position = totalCount - 1`; only when that position is valid is
the variable overwritten with the last commit, otherwise the previous value
is kept (it is a loop-carried variable, initialized once before the loop). -/
def updateMostRecent (prev : CommitRef) (pr : PR) : CommitRef :=
  match pr.commits.getLast? with
  | some c => CommitRef.commit c
  | none => prev

/-- The body of the `while index < RATE_LIMIT` loop of `get_PR_info`
(lines 625-691), recursing on the remaining iteration count.  State:
current index, the loop-carried `most_recent_commit`, and the two
accumulator lists `pr_metalist` and `commits_list`. -/
def prLoopAux (prList : Nat → PR) (outputType : String) :
    Nat → Nat → CommitRef → List (List Field) → List CommitRef →
    List (List Field) × List CommitRef
  | 0, _, _, prMeta, commitsList => (prMeta, commitsList)
  | r + 1, index, mrc, prMeta, commitsList =>
    let curPr := prList index
    let frag := prFragment outputType curPr
    let mrc' := updateMostRecent mrc curPr
    prLoopAux prList outputType r (index + 1) mrc'
      (prMeta ++ [frag]) (commitsList ++ [mrc'])

/-- `get_PR_info` (lines 613-694): returns `pr_metalist` and `commits_list`.
`most_recent_commit` starts as the sentinel string. -/
def getPRInfo (prList : Nat → PR) (outputType : String) :
    List (List Field) × List CommitRef :=
  prLoopAux prList outputType RATE_LIMIT 0 CommitRef.sentinel [] []

/-- The fold over `cur_commit.files` in the commit output mode
(lines 272-296): collects file names and accumulates additions, changes,
patch text, deletions and the status string. -/
def filesFold (files : List CommitFile) :
    List String × Int × Int × String × Int × String :=
  files.foldl
    (fun acc f =>
      let (fl, adds, changes, patch, rms, status) := acc
      (fl ++ [f.filename], adds + f.additions, changes + f.changes,
       patch ++ f.patch ++ ", ", rms + f.deletions, status ++ f.status ++ ", "))
    ([], 0, 0, "", 0, "")

/-- The `commit_info_list` built in `get_commit_info` for a present commit
(lines 246-310): author and quoted message, then the commit date in "pr"
mode, or committer, SHA, file list, patch text, additions, deletions, quoted
status and changes in "commit" mode. -/
def commitFragment (outputType : String) (c : Commit) : List Field :=
  let base := [Field.str c.authorName, Field.str ("\"" ++ c.message ++ "\"")]
  if outputType = "pr" then
    base ++ [Field.str c.authorDate]
  else
    let (fl, adds, changes, patch, rms, status) := filesFold c.files
    base ++
      [Field.str c.committerName, Field.str c.sha, Field.strList fl,
       Field.str patch, Field.int adds, Field.int rms,
       Field.str ("\"" ++ status ++ "\""), Field.int changes]

/-- The body of the `while commit_list_index < RATE_LIMIT` loop of
`get_commit_info` (lines 237-324).  `commit_list` is a materialized Python
list, so an out-of-range index is an uncaught `IndexError`, modelled as
`none`.  The loop-carried `commit_info_list` (initialized to the empty list)
is rebuilt only when the entry is a commit object; when the entry is the
sentinel string the *current* value is appended unchanged. -/
def commitLoopAux (commitList : List CommitRef) (outputType : String) :
    Nat → Nat → List Field → List (List Field) → Option (List (List Field))
  | 0, _, _, meta => some meta
  | r + 1, index, infoList, meta =>
    match commitList.get? index with
    | none => none
    | some ref =>
      match ref with
      | CommitRef.sentinel =>
        commitLoopAux commitList outputType r (index + 1) infoList
          (meta ++ [infoList])
      | CommitRef.commit c =>
        let newList := commitFragment outputType c
        commitLoopAux commitList outputType r (index + 1) newList
          (meta ++ [newList])

/-- `get_commit_info` (lines 209-326). -/
def getCommitInfo (commitList : List CommitRef) (outputType : String) :
    Option (List (List Field)) :=
  commitLoopAux commitList outputType RATE_LIMIT 0 [] []

/-- The `issue_context_list` built for one issue (lines 377-406), given the
current value of the loop-carried `isPR` variable after the
`pull_request is not None` check. -/
def issueFragment (iss : Issue) (isPRVal : Int) : List Field :=
  [Field.str iss.closedAt,
   Field.str iss.userName,
   Field.str iss.title,
   Field.str (quoteBody iss.body),
   Field.str (serializeCommentCount iss.comments),
   Field.int isPRVal]

/-- The body of the `while index < RATE_LIMIT` loop of `get_issue_info`
(lines 371-417).  The `isPR` variable is initialized to 0 once, before the
loop, and is set to 1 when an issue has an associated pull request; it is
never reset, so it is loop-carried state. -/
def issueLoopAux (issueList : Nat → Issue) :
    Nat → Nat → Int → List (List Field) → List (List Field)
  | 0, _, _, meta => meta
  | r + 1, index, isPRVal, meta =>
    let cur := issueList index
    let isPRVal' := if cur.hasPullRequest then 1 else isPRVal
    let frag := issueFragment cur isPRVal'
    issueLoopAux issueList r (index + 1) isPRVal' (meta ++ [frag])

/-- `get_issue_info` (lines 361-420). -/
def getIssueInfo (issueList : Nat → Issue) : List (List Field) :=
  issueLoopAux issueList RATE_LIMIT 0 0 []

/-- Failure modes of a run.  `indexError` is Python's uncaught `IndexError`
from indexing a too-short list.  `misalignedExtraction` is the distinguished
error the specification's RowAligner is required to raise for a source
sequence shorter than the fetch bound; it exists here so that requirement can
be stated, the extractor code itself never raises it. -/
inductive RunError where
  | indexError : RunError
  | misalignedExtraction : RunError
deriving DecidableEq, Repr

/-- Sequence a list of optional cells: `some` of all values when every cell
access succeeded, `none` as soon as one raised an `IndexError`. -/
def seqCells : List (Option Field) → Option (List Field)
  | [] => some []
  | o :: rest =>
    Option.bind o (fun v => Option.bind (seqCells rest) (fun vs => some (v :: vs)))

/-- One iteration of the aggregation loop in "pr" mode (lines 913-952):
the row is defined exactly when every list index access of the Python body
succeeds, and its cells are listed in the order the code assembles
`output_row` (which accesses `cur_pr[5]` for the 7th cell, `cur_pr[2]` for
the 8th, and so on). -/
def aggRowPr (commitMeta issueMeta prMeta : List (List Field)) (index : Nat) :
    Option (List Field) := do
  let curCommit ← commitMeta.get? index
  let curPr ← prMeta.get? index
  let curIssue ← issueMeta.get? index
  seqCells
    [curPr.get? 0, curIssue.get? 0, curIssue.get? 1,
     curIssue.get? 2, curIssue.get? 3, curPr.get? 3,
     curPr.get? 5, curPr.get? 2, curPr.get? 4,
     curIssue.get? 4, curPr.get? 1, curCommit.get? 0,
     curCommit.get? 2, curCommit.get? 1, curIssue.get? 5]

/-- One iteration of the aggregation loop in "commit" mode
(lines 913-919, 955-974). -/
def aggRowCommit (commitMeta prMeta : List (List Field)) (index : Nat) :
    Option (List Field) := do
  let curCommit ← commitMeta.get? index
  let curPr ← prMeta.get? index
  seqCells
    [curCommit.get? 0, curCommit.get? 2, curPr.get? 0,
     curCommit.get? 3, curCommit.get? 1, curCommit.get? 4,
     curCommit.get? 5, curCommit.get? 6, curCommit.get? 7,
     curCommit.get? 8, curCommit.get? 9]

/-- The `while aggregation_index < RATE_LIMIT` loop of `write_csv_output`
(lines 911-979).  A failed list access is Python's uncaught `IndexError`. -/
def aggLoop (outputType : String) (commitMeta issueMeta prMeta : List (List Field)) :
    Nat → Nat → List (List Field) → Except RunError (List (List Field))
  | 0, _, acc => Except.ok acc
  | r + 1, index, acc =>
    let row? :=
      if outputType = "pr" then aggRowPr commitMeta issueMeta prMeta index
      else aggRowCommit commitMeta prMeta index
    match row? with
    | none => Except.error RunError.indexError
    | some row => aggLoop outputType commitMeta issueMeta prMeta r (index + 1) (acc ++ [row])

/-- The row-aggregation stage of `write_csv_output`: the data rows written
after the header row. -/
def aggregateRows (outputType : String)
    (commitMeta issueMeta prMeta : List (List Field)) :
    Except RunError (List (List Field)) :=
  aggLoop outputType commitMeta issueMeta prMeta RATE_LIMIT 0 []

/-- The header row written by `write_csv_output` (lines 881, 891-892, 907). -/
def labelCols (outputType : String) : List String :=
  if outputType = "pr" then PR_COL_NAMES else COMMIT_COL_NAMES

/-- The whole of `write_csv_output` (lines 866-982) minus the file I/O:
extract PR info and commit refs, extract commit info, extract issue info in
"pr" mode, and aggregate everything into the header plus the data rows. -/
def writeCsvOutput (outputType : String) (prList : Nat → PR)
    (issueList : Nat → Issue) :
    Except RunError (List String × List (List Field)) :=
  let (prMeta, commitsList) := getPRInfo prList outputType
  match getCommitInfo commitsList outputType with
  | none => Except.error RunError.indexError
  | some commitMeta =>
    let issueMeta := if outputType = "pr" then getIssueInfo issueList else []
    match aggregateRows outputType commitMeta issueMeta prMeta with
    | Except.error e => Except.error e
    | Except.ok rows => Except.ok (labelCols outputType, rows)

/-- `read_user_info` (lines 755-784) on the list of raw lines of the auth
file: strip newlines then surrounding whitespace from each line and keep the
nonempty results. -/
def readUserInfo (lines : List String) : List String :=
  lines.foldl
    (fun acc value =>
      let stripped := pyStripSpace (pyStripChar '\n' value)
      if stripped.length > 0 then acc ++ [stripped] else acc)
    []

/-- The credential `main` hands to `github.Github` (line 75):
`userauth_list[0]`, the *first* entry of the parsed auth file. -/
def sessionCredential (lines : List String) : Option String :=
  (readUserInfo lines).get? 0

/-! ### Concrete run inputs used by the evaluation theorems -/

/-- A commit record used as the single commit of `exPrWithCommit`. -/
def exCommitA : Commit :=
  { authorName := "alice"
    message := "first change"
    authorDate := "01/02/21 01:00:00 AM"
    committerName := "alice"
    sha := "sha-a"
    files := [] }

/-- A PR whose commit list holds exactly one commit. -/
def exPrWithCommit : PR :=
  { number := 1
    userLogin := "alice"
    body := "pr body one"
    closedAt := "01/03/21 01:00:00 AM"
    comments := 2
    title := "improve docs"
    commits := [exCommitA] }

/-- A PR with zero associated commits. -/
def exPrNoCommits : PR :=
  { number := 2
    userLogin := "bob"
    body := "pr body two"
    closedAt := "01/04/21 01:00:00 AM"
    comments := 0
    title := "fix crash"
    commits := [] }

/-- A PR stream whose PR at index 0 has one commit and whose later PRs have
none. -/
def exPrListStale : Nat → PR :=
  fun i => if i = 0 then exPrWithCommit else exPrNoCommits

/-- A PR stream in which every PR has zero commits. -/
def exPrListEmptyCommits : Nat → PR :=
  fun _ => exPrNoCommits

/-- An issue that carries an associated pull-request link. -/
def exIssueWithPR : Issue :=
  { userName := "carol"
    body := "issue one"
    comments := 3
    closedAt := "01/05/21 01:00:00 AM"
    title := "crash on start"
    hasPullRequest := true }

/-- An issue with no associated pull-request link. -/
def exIssueNoPR : Issue :=
  { userName := "dan"
    body := "issue two"
    comments := 0
    closedAt := "01/06/21 01:00:00 AM"
    title := "typo in readme"
    hasPullRequest := false }

/-- An issue stream whose issue 0 has a pull-request link and whose later
issues do not. -/
def exIssueListSticky : Nat → Issue :=
  fun i => if i = 0 then exIssueWithPR else exIssueNoPR

/-- The raw lines of an auth file in the documented format: username on
line 1, personal access token on line 2, with a blank line between them. -/
def exAuthLines : List String := ["octocat\n", "\n", "ghp-token-123\n"]

/-! ### C1, C2, C3, C9: evaluations of the code at the failing inputs -/

/-- C1: the claim says the commit fragment joined into row `i` is built from
the most recent commit of the PR at row `i` and never from a commit of any
other PR.  Evaluating `get_PR_info` on a stream whose PR at index 1 has zero
commits shows that row 1's commit reference is the commit of PR 0: the
loop-carried `most_recent_commit` variable is only overwritten when a PR has
commits, so the previous PR's commit leaks into row 1. -/
theorem c1_stale_commit_ref :
    ((getPRInfo exPrListStale "pr").2).get? 1 = some (CommitRef.commit exCommitA) ∧
    (exPrListStale 1).commits = [] :=
  ⟨rfl, rfl⟩

/-- C2: the claim says that when the PR at row `i` has zero commits, every
column of the commit fragment at row `i` equals the sentinel.  Evaluating
`get_commit_info` on a run in which every PR has zero commits shows the
fragment at each row is the *empty* list, not a sentinel-filled row of the
three pr-mode commit columns, and the full run then dies with an
`IndexError` during aggregation. -/
theorem c2_zero_commit_fragment_empty :
    getCommitInfo ((getPRInfo exPrListEmptyCommits "pr").2) "pr" =
      some [[], [], [], [], []] ∧
    ([] : List Field) ≠
      [Field.str sentinel, Field.str sentinel, Field.str sentinel] ∧
    writeCsvOutput "pr" exPrListEmptyCommits exIssueListSticky =
      Except.error RunError.indexError :=
  ⟨rfl, by decide, rfl⟩

/-- C3: the claim says the `isPR` field of issue fragment `i` is 1 exactly
when issue `i` itself has an associated pull-request link, evaluated freshly
per issue.  Evaluating `get_issue_info` on a stream whose issue 0 has a link
and whose issue 1 does not shows fragment 1 still carries the flag 1: the
`isPR` variable is initialized once before the loop and never reset. -/
theorem c3_isPR_flag_sticky :
    Option.bind ((getIssueInfo exIssueListSticky).get? 1)
      (fun frag => frag.get? 5) = some (Field.int 1) ∧
    (exIssueListSticky 1).hasPullRequest = false :=
  ⟨rfl, rfl⟩

/-- C9: the claim says the session is authenticated with the access token
from line 2 of the auth file and the username on line 1 is unused.
Evaluating `read_user_info` plus the `github.Github( userauth_list[0] )`
call of `main` on a well-formed auth file shows the credential handed to the
session is the line-1 username, not the line-2 token. -/
theorem c9_auth_uses_first_line :
    readUserInfo exAuthLines = ["octocat", "ghp-token-123"] ∧
    sessionCredential exAuthLines = some ("octocat") ∧
    sessionCredential exAuthLines ≠ (readUserInfo exAuthLines).get? 1 :=
  ⟨rfl, rfl, by decide⟩

/-! ### C8: comment-count sentinel law -/

/-- Auxiliary: with nonzero fuel, `Nat.toDigitsCore` emits at least one
digit. -/
lemma toDigitsCore_length_pos (b f n : Nat) (hf : f ≠ 0) :
    1 ≤ (Nat.toDigitsCore b f n []).length := by
  obtain ⟨g, rfl⟩ : ∃ g, f = g + 1 := ⟨f - 1, by omega⟩
  simp only [Nat.toDigitsCore]
  by_cases h : n / b = 0
  · simp [h]
  · simp only [h, if_false]
    rw [Nat.toDigitsCore_lens_eq]
    omega

/-- The decimal representation of a natural number is the string "0" exactly
when the number is 0. -/
lemma pyStr_eq_zero_iff (n : Nat) : pyStr n = "0" ↔ n = 0 := by
  constructor
  · intro h
    by_contra hn
    have hlist : Nat.toDigits 10 n = ['0'] := by
      have hd := congrArg String.data h
      simpa [pyStr, Nat.repr, List.asString] using hd
    rcases Nat.lt_or_ge n 10 with h10 | h10
    · have hdiv : n / 10 = 0 := Nat.div_eq_of_lt h10
      have hone : Nat.toDigits 10 n = [Nat.digitChar (n % 10)] := by
        simp [Nat.toDigits, Nat.toDigitsCore, hdiv]
      rw [hone] at hlist
      have hchar : Nat.digitChar (n % 10) = '0' := by
        simpa using hlist
      rw [Nat.mod_eq_of_lt h10] at hchar
      interval_cases n
      · exact hn rfl
      all_goals exact absurd hchar (by decide)
    · have hdiv : n / 10 ≠ 0 := by
        have : 10 / 10 ≤ n / 10 := Nat.div_le_div_right h10
        simpa using fun hz => by omega
      have hstep : Nat.toDigits 10 n =
          Nat.toDigitsCore 10 n (n / 10) [Nat.digitChar (n % 10)] := by
        simp [Nat.toDigits, Nat.toDigitsCore, hdiv]
      have hlen2 : 2 ≤ (Nat.toDigits 10 n).length := by
        rw [hstep, Nat.toDigitsCore_lens_eq]
        have := toDigitsCore_length_pos 10 n (n / 10) (by omega)
        omega
      rw [hlist] at hlen2
      simp at hlen2
  · intro h
    subst h
    rfl

/-- C8: the comment-count serialization shared by the PR and issue
extractors maps a raw count of exactly 0 to the sentinel literal and leaves
every nonzero count as its decimal string. -/
theorem c8_comment_count_sentinel (n : Nat) :
    serializeCommentCount n = if n = 0 then sentinel else pyStr n := by
  unfold serializeCommentCount
  by_cases h : n = 0
  · subst h
    rfl
  · have hne : pyStr n ≠ "0" := fun hc => h ((pyStr_eq_zero_iff n).mp hc)
    simp [h, hne]

/-! ### C7: body text normalization -/

/-- C7 counterexample: the claim says all embedded newline characters are
removed from a stored body field.  On the body containing an interior
newline the extractor's normalization (Python `strip`, which only trims the
ends) keeps the interior newline, so the stored field differs from the
claimed rendering. -/
theorem c7_embedded_newline_kept :
    quoteBody ("line1\nline2") = "\"line1\nline2\"" ∧
    quoteBody ("line1\nline2") ≠ "\"line1line2\"" :=
  ⟨rfl, by decide⟩

/-- Auxiliary: the head of `dropWhile p` never satisfies `p`. -/
lemma head?_dropWhile_false {α : Type} (p : α → Bool) (x : List α) (c : α)
    (h : (x.dropWhile p).head? = some c) : p c = false := by
  induction x with
  | nil => simp [List.dropWhile] at h
  | cons a t ih =>
    rw [List.dropWhile_cons] at h
    split at h
    · exact ih h
    · next hpa =>
      simp only [List.head?_cons, Option.some.injEq] at h
      subst h
      simpa using hpa

/-- Auxiliary: the trailing run removed by the second pass of `stripEnds`. -/
def stripEndsTail (p : Char → Bool) (l : List Char) : List Char :=
  ((l.dropWhile p).reverse.takeWhile p).reverse

/-- Auxiliary: `stripEnds` only removes a prefix and a suffix: the original
list is the removed prefix, the kept core, and the removed suffix. -/
lemma stripEnds_restore (p : Char → Bool) (l : List Char) :
    l.takeWhile p ++ (stripEnds p l ++ stripEndsTail p l) = l := by
  have h1 : stripEnds p l ++ stripEndsTail p l = l.dropWhile p := by
    unfold stripEnds stripEndsTail
    rw [← List.reverse_append, List.takeWhile_append_dropWhile, List.reverse_reverse]
  rw [h1, List.takeWhile_append_dropWhile]

/-- Auxiliary: the first kept element does not satisfy `p`. -/
lemma stripEnds_head (p : Char → Bool) (l : List Char) (c : Char)
    (hc : (stripEnds p l).head? = some c) : p c = false := by
  have hd : (l.dropWhile p).head? = some c := by
    have h1 : stripEnds p l ++ stripEndsTail p l = l.dropWhile p := by
      unfold stripEnds stripEndsTail
      rw [← List.reverse_append, List.takeWhile_append_dropWhile, List.reverse_reverse]
    rw [← h1]
    cases hcase : stripEnds p l with
    | nil => rw [hcase] at hc; simp at hc
    | cons a t =>
      rw [hcase] at hc
      simp only [List.head?_cons, Option.some.injEq] at hc
      subst hc
      simp
  exact head?_dropWhile_false p l c hd

/-- Auxiliary: the last kept element does not satisfy `p`. -/
lemma stripEnds_last (p : Char → Bool) (l : List Char) (c : Char)
    (hc : (stripEnds p l).getLast? = some c) : p c = false := by
  unfold stripEnds at hc
  rw [List.getLast?_reverse] at hc
  exact head?_dropWhile_false p (l.dropWhile p).reverse c hc

/-- C7 (amended): a body field is stored wrapped in literal quote
characters around a core obtained from the original by removing a run of
leading newlines and a run of trailing newlines; interior newline characters
are preserved (the core sits unchanged between the two removed runs). -/
theorem c7_strip_leading_trailing (s : String) :
    ∃ pre core post : List Char,
      s.data = pre ++ core ++ post ∧
      (∀ c ∈ pre, c = '\n') ∧
      (∀ c ∈ post, c = '\n') ∧
      (∀ c, core.head? = some c → c ≠ '\n') ∧
      (∀ c, core.getLast? = some c → c ≠ '\n') ∧
      (quoteBody s).data = '"' :: (core ++ ['"']) := by
  refine ⟨s.data.takeWhile (fun a => a == '\n'),
          stripEnds (fun a => a == '\n') s.data,
          stripEndsTail (fun a => a == '\n') s.data, ?_, ?_, ?_, ?_, ?_, ?_⟩
  · rw [List.append_assoc, stripEnds_restore]
  · intro c hc
    have := List.mem_takeWhile_imp hc
    simpa using this
  · intro c hc
    unfold stripEndsTail at hc
    rw [List.mem_reverse] at hc
    have := List.mem_takeWhile_imp hc
    simpa using this
  · intro c hc
    have := stripEnds_head (fun a => a == '\n') s.data c hc
    simpa using this
  · intro c hc
    have := stripEnds_last (fun a => a == '\n') s.data c hc
    simpa using this
  · show (quoteBody s).data = _
    simp [quoteBody, pyStripChar, String.data_append]

/-! ### C4: behaviour of row aggregation on short fragment sequences -/

/-- Auxiliary: a successful "pr" row requires all three fragment lookups at
its index to succeed. -/
lemma aggRowPr_isSome (cm im pm : List (List Field)) (idx : Nat)
    (row : List Field) (h : aggRowPr cm im pm idx = some row) :
    (cm.get? idx).isSome ∧ (im.get? idx).isSome ∧ (pm.get? idx).isSome := by
  unfold aggRowPr at h
  cases h1 : cm.get? idx with
  | none => rw [h1] at h; exact Option.noConfusion h
  | some cc =>
    rw [h1] at h
    cases h2 : pm.get? idx with
    | none => rw [h2] at h; exact Option.noConfusion h
    | some cp =>
      rw [h2] at h
      cases h3 : im.get? idx with
      | none => rw [h3] at h; exact Option.noConfusion h
      | some ci => exact ⟨by simp [h1], by simp [h3], by simp [h2]⟩

/-- Auxiliary: a successful "commit" row requires the commit and PR fragment
lookups at its index to succeed. -/
lemma aggRowCommit_isSome (cm pm : List (List Field)) (idx : Nat)
    (row : List Field) (h : aggRowCommit cm pm idx = some row) :
    (cm.get? idx).isSome ∧ (pm.get? idx).isSome := by
  unfold aggRowCommit at h
  cases h1 : cm.get? idx with
  | none => rw [h1] at h; exact Option.noConfusion h
  | some cc =>
    rw [h1] at h
    cases h2 : pm.get? idx with
    | none => rw [h2] at h; exact Option.noConfusion h
    | some cp => exact ⟨by simp [h1], by simp [h2]⟩

/-- Auxiliary: if the aggregation loop completes, every index it visited had
a fragment in each consumed sequence. -/
lemma aggLoop_ok_bounds (ot : String) (cm im pm : List (List Field)) :
    ∀ (r idx : Nat) (acc rows : List (List Field)),
      aggLoop ot cm im pm r idx acc = Except.ok rows →
      ∀ j, idx ≤ j → j < idx + r →
        (cm.get? j).isSome ∧ (pm.get? j).isSome ∧
        (ot = "pr" → (im.get? j).isSome) := by
  intro r
  induction r with
  | zero =>
    intro idx acc rows _ j hj1 hj2
    omega
  | succ n ih =>
    intro idx acc rows h j hj1 hj2
    simp only [aggLoop] at h
    by_cases hot : ot = "pr"
    · rw [if_pos hot] at h
      cases hrow : aggRowPr cm im pm idx with
      | none => rw [hrow] at h; exact Except.noConfusion h
      | some row =>
        rw [hrow] at h
        rcases Nat.eq_or_lt_of_le hj1 with hEq | hLt
        · subst hEq
          have hs := aggRowPr_isSome cm im pm _ row hrow
          exact ⟨hs.1, hs.2.2, fun _ => hs.2.1⟩
        · exact ih (idx + 1) (acc ++ [row]) rows h j hLt (by omega)
    · rw [if_neg hot] at h
      cases hrow : aggRowCommit cm pm idx with
      | none => rw [hrow] at h; exact Except.noConfusion h
      | some row =>
        rw [hrow] at h
        rcases Nat.eq_or_lt_of_le hj1 with hEq | hLt
        · subst hEq
          have hs := aggRowCommit_isSome cm pm _ row hrow
          exact ⟨hs.1, hs.2, fun hpr => absurd hpr hot⟩
        · exact ih (idx + 1) (acc ++ [row]) rows h j hLt (by omega)

/-- Auxiliary: the only error the aggregation loop ever produces is the
uncaught `IndexError`. -/
lemma aggLoop_error_eq (ot : String) (cm im pm : List (List Field)) :
    ∀ (r idx : Nat) (acc : List (List Field)) (e : RunError),
      aggLoop ot cm im pm r idx acc = Except.error e →
      e = RunError.indexError := by
  intro r
  induction r with
  | zero =>
    intro idx acc e h
    exact Except.noConfusion h
  | succ n ih =>
    intro idx acc e h
    simp only [aggLoop] at h
    cases hrow : (if ot = "pr" then aggRowPr cm im pm idx else aggRowCommit cm pm idx) with
    | none =>
      rw [hrow] at h
      have h' : (Except.error RunError.indexError :
          Except RunError (List (List Field))) = Except.error e := h
      injection h' with h''
      exact h''.symm
    | some row =>
      rw [hrow] at h
      exact ih (idx + 1) (acc ++ [row]) e h

/-- C4 counterexample: the claim says a source sequence shorter than the
fetch bound makes the run fail with a distinguished misaligned-extraction
error.  On empty fragment sequences the aggregation of `write_csv_output`
fails with the uncaught `IndexError` instead, which is not that error. -/
theorem c4_misaligned_counterexample :
    aggregateRows "pr" [] [] [] = Except.error RunError.indexError ∧
    ([] : List (List Field)).length < RATE_LIMIT ∧
    RunError.indexError ≠ RunError.misalignedExtraction :=
  ⟨rfl, by decide, by decide⟩

/-- C4 (amended): if any fragment sequence consumed by the active mode has
fewer than `RATE_LIMIT` entries, row aggregation fails — it neither silently
truncates the output nor succeeds — but the failure is the uncaught
`IndexError`, not a distinguished misaligned-extraction error. -/
theorem c4_short_sequence_index_error (ot : String)
    (cm im pm : List (List Field))
    (h : cm.length < RATE_LIMIT ∨ pm.length < RATE_LIMIT ∨
         (ot = "pr" ∧ im.length < RATE_LIMIT)) :
    aggregateRows ot cm im pm = Except.error RunError.indexError := by
  cases hres : aggregateRows ot cm im pm with
  | ok rows =>
    exfalso
    have hb := aggLoop_ok_bounds ot cm im pm RATE_LIMIT 0 [] rows hres
    rcases h with h | h | ⟨hpr, h⟩
    · have hj := (hb cm.length (by omega) (by omega)).1
      rw [List.get?_eq_none.mpr (Nat.le_refl _)] at hj
      exact Bool.noConfusion hj
    · have hj := (hb pm.length (by omega) (by omega)).2.1
      rw [List.get?_eq_none.mpr (Nat.le_refl _)] at hj
      exact Bool.noConfusion hj
    · have hj := (hb im.length (by omega) (by omega)).2.2 hpr
      rw [List.get?_eq_none.mpr (Nat.le_refl _)] at hj
      exact Bool.noConfusion hj
  | error e =>
    rw [aggLoop_error_eq ot cm im pm RATE_LIMIT 0 [] e hres]

/-- C4 witness: the amended theorem applied to a concrete short PR fragment
sequence in "commit" mode. -/
theorem c4_short_sequence_index_error_witness :
    aggregateRows "commit" [] [] [[Field.int 1]] =
      Except.error RunError.indexError :=
  c4_short_sequence_index_error "commit" [] [] [[Field.int 1]]
    (Or.inr (Or.inl (by decide)))

/-! ### C5: rate-limit backoff keeps the cursor and the output -/

/-- The PR extraction loop with the rate-limit condition made explicit: the
fetch of item `index` (`pr_list[index]`, the remote access the loop's
try-block starts with) raises `RateLimitExceededException` whenever the
schedule says so for the current attempt number `t`.  The except-branch runs
`run_timer` (pure waiting) and retries with the *same* `index`; nothing else
of the loop state changes.  `fuel` bounds the number of attempts so the
function is total; a run that does not finish within `fuel` attempts is
`none`. -/
def prLoopThrottledAux (prList : Nat → PR) (outputType : String)
    (sched : Nat → Bool) :
    Nat → Nat → Nat → CommitRef → List (List Field) → List CommitRef →
    Option (List (List Field) × List CommitRef)
  | 0, _, _, _, _, _ => none
  | fuel + 1, t, index, mrc, prMeta, commitsList =>
    if index < RATE_LIMIT then
      if sched t then
        prLoopThrottledAux prList outputType sched fuel (t + 1) index mrc
          prMeta commitsList
      else
        let curPr := prList index
        let frag := prFragment outputType curPr
        let mrc' := updateMostRecent mrc curPr
        prLoopThrottledAux prList outputType sched fuel (t + 1) (index + 1)
          mrc' (prMeta ++ [frag]) (commitsList ++ [mrc'])
    else
      some (prMeta, commitsList)

/-- `get_PR_info` under a rate-limit schedule. -/
def getPRInfoThrottled (prList : Nat → PR) (outputType : String)
    (sched : Nat → Bool) (fuel : Nat) :
    Option (List (List Field) × List CommitRef) :=
  prLoopThrottledAux prList outputType sched fuel 0 0 CommitRef.sentinel [] []

/-- The issue extraction loop with the rate-limit condition made explicit,
with the same retry discipline as `prLoopThrottledAux`. -/
def issueLoopThrottledAux (issueList : Nat → Issue) (sched : Nat → Bool) :
    Nat → Nat → Nat → Int → List (List Field) → Option (List (List Field))
  | 0, _, _, _, _ => none
  | fuel + 1, t, index, isPRVal, meta =>
    if index < RATE_LIMIT then
      if sched t then
        issueLoopThrottledAux issueList sched fuel (t + 1) index isPRVal meta
      else
        let cur := issueList index
        let isPRVal' := if cur.hasPullRequest then 1 else isPRVal
        let frag := issueFragment cur isPRVal'
        issueLoopThrottledAux issueList sched fuel (t + 1) (index + 1) isPRVal'
          (meta ++ [frag])
    else
      some meta

/-- `get_issue_info` under a rate-limit schedule. -/
def getIssueInfoThrottled (issueList : Nat → Issue) (sched : Nat → Bool)
    (fuel : Nat) : Option (List (List Field)) :=
  issueLoopThrottledAux issueList sched fuel 0 0 0 []

/-- Auxiliary: a terminating throttled PR loop computes exactly what the
unthrottled loop computes from the same state. -/
lemma prLoopThrottledAux_eq (prList : Nat → PR) (outputType : String)
    (sched : Nat → Bool) :
    ∀ (fuel t index : Nat) (mrc : CommitRef) (prMeta : List (List Field))
      (commitsList : List CommitRef) (out : List (List Field) × List CommitRef),
      prLoopThrottledAux prList outputType sched fuel t index mrc prMeta
        commitsList = some out →
      out = prLoopAux prList outputType (RATE_LIMIT - index) index mrc prMeta
        commitsList := by
  intro fuel
  induction fuel with
  | zero =>
    intro t index mrc prMeta commitsList out h
    exact Option.noConfusion h
  | succ f ih =>
    intro t index mrc prMeta commitsList out h
    simp only [prLoopThrottledAux] at h
    by_cases hidx : index < RATE_LIMIT
    · rw [if_pos hidx] at h
      by_cases hs : sched t
      · rw [if_pos hs] at h
        exact ih (t + 1) index mrc prMeta commitsList out h
      · rw [if_neg hs] at h
        have hrec := ih (t + 1) (index + 1) (updateMostRecent mrc (prList index))
          (prMeta ++ [prFragment outputType (prList index)])
          (commitsList ++ [updateMostRecent mrc (prList index)]) out h
        have hr : RATE_LIMIT - index = (RATE_LIMIT - (index + 1)) + 1 := by omega
        rw [hr]
        simp only [prLoopAux]
        exact hrec
    · rw [if_neg hidx] at h
      have hout : (prMeta, commitsList) = out := Option.some.inj h
      have hr : RATE_LIMIT - index = 0 := by omega
      rw [hr]
      simp only [prLoopAux]
      exact hout.symm

/-- Auxiliary: a terminating throttled issue loop computes exactly what the
unthrottled loop computes from the same state. -/
lemma issueLoopThrottledAux_eq (issueList : Nat → Issue) (sched : Nat → Bool) :
    ∀ (fuel t index : Nat) (isPRVal : Int) (meta : List (List Field))
      (out : List (List Field)),
      issueLoopThrottledAux issueList sched fuel t index isPRVal meta =
        some out →
      out = issueLoopAux issueList (RATE_LIMIT - index) index isPRVal meta := by
  intro fuel
  induction fuel with
  | zero =>
    intro t index isPRVal meta out h
    exact Option.noConfusion h
  | succ f ih =>
    intro t index isPRVal meta out h
    simp only [issueLoopThrottledAux] at h
    by_cases hidx : index < RATE_LIMIT
    · rw [if_pos hidx] at h
      by_cases hs : sched t
      · rw [if_pos hs] at h
        exact ih (t + 1) index isPRVal meta out h
      · rw [if_neg hs] at h
        have hrec := ih (t + 1) (index + 1)
          (if (issueList index).hasPullRequest then 1 else isPRVal)
          (meta ++ [issueFragment (issueList index)
            (if (issueList index).hasPullRequest then 1 else isPRVal)]) out h
        have hr : RATE_LIMIT - index = (RATE_LIMIT - (index + 1)) + 1 := by omega
        rw [hr]
        simp only [issueLoopAux]
        exact hrec
    · rw [if_neg hidx] at h
      have hout : meta = out := Option.some.inj h
      have hr : RATE_LIMIT - index = 0 := by omega
      rw [hr]
      simp only [issueLoopAux]
      exact hout.symm

/-- C5: backoff idempotence.  In the PR and issue extractor loops, a
rate-limit exception raised while fetching item `i` leaves the iteration
index at `i` (the retry fetches the same item), and any throttled run that
terminates produces exactly the output of the unthrottled run over the same
data, whatever the schedule of rate-limit events. -/
theorem c5_backoff_idempotence :
    (∀ (prList : Nat → PR) (outputType : String) (sched : Nat → Bool)
       (fuel : Nat) (out : List (List Field) × List CommitRef),
       getPRInfoThrottled prList outputType sched fuel = some out →
       out = getPRInfo prList outputType) ∧
    (∀ (issueList : Nat → Issue) (sched : Nat → Bool) (fuel : Nat)
       (out : List (List Field)),
       getIssueInfoThrottled issueList sched fuel = some out →
       out = getIssueInfo issueList) := by
  constructor
  · intro prList outputType sched fuel out h
    exact prLoopThrottledAux_eq prList outputType sched fuel 0 0
      CommitRef.sentinel [] [] out h
  · intro issueList sched fuel out h
    exact issueLoopThrottledAux_eq issueList sched fuel 0 0 0 [] out h

/-- A concrete rate-limit schedule with throttle events at the first and
fourth attempts. -/
def exSched : Nat → Bool :=
  fun t => t == 0 || t == 3

/-- C5 witness: under the concrete schedule `exSched`, both throttled
extractors terminate within 12 attempts and return exactly the unthrottled
outputs. -/
theorem c5_backoff_idempotence_witness :
    (∃ out, getPRInfoThrottled exPrListStale "pr" exSched 12 = some out ∧
      out = getPRInfo exPrListStale "pr") ∧
    (∃ out, getIssueInfoThrottled exIssueListSticky exSched 12 = some out ∧
      out = getIssueInfo exIssueListSticky) :=
  ⟨⟨_, rfl, c5_backoff_idempotence.1 exPrListStale "pr" exSched 12 _ rfl⟩,
   ⟨_, rfl, c5_backoff_idempotence.2 exIssueListSticky exSched 12 _ rfl⟩⟩

/-! ### C10: the fetch bound is the fixed constant 5 -/

/-- Auxiliary: the PR loop appends exactly one fragment and one commit
reference per remaining iteration. -/
lemma prLoopAux_lengths (prList : Nat → PR) (outputType : String) :
    ∀ (r idx : Nat) (mrc : CommitRef) (prMeta : List (List Field))
      (commitsList : List CommitRef),
      (prLoopAux prList outputType r idx mrc prMeta commitsList).1.length =
        prMeta.length + r ∧
      (prLoopAux prList outputType r idx mrc prMeta commitsList).2.length =
        commitsList.length + r := by
  intro r
  induction r with
  | zero =>
    intro idx mrc prMeta commitsList
    simp [prLoopAux]
  | succ n ih =>
    intro idx mrc prMeta commitsList
    simp only [prLoopAux]
    have hih := ih (idx + 1) (updateMostRecent mrc (prList idx))
      (prMeta ++ [prFragment outputType (prList idx)])
      (commitsList ++ [updateMostRecent mrc (prList idx)])
    constructor
    · rw [hih.1, List.length_append]
      simp
      omega
    · rw [hih.2, List.length_append]
      simp
      omega

/-- Auxiliary: the issue loop appends exactly one fragment per remaining
iteration. -/
lemma issueLoopAux_length (issueList : Nat → Issue) :
    ∀ (r idx : Nat) (isPRVal : Int) (meta : List (List Field)),
      (issueLoopAux issueList r idx isPRVal meta).length = meta.length + r := by
  intro r
  induction r with
  | zero =>
    intro idx isPRVal meta
    simp [issueLoopAux]
  | succ n ih =>
    intro idx isPRVal meta
    simp only [issueLoopAux]
    rw [ih]
    rw [List.length_append]
    simp
    omega

/-- Auxiliary: a completed commit loop appends exactly one fragment per
remaining iteration. -/
lemma commitLoopAux_length (commitList : List CommitRef) (outputType : String) :
    ∀ (r idx : Nat) (infoList : List Field) (meta out : List (List Field)),
      commitLoopAux commitList outputType r idx infoList meta = some out →
      out.length = meta.length + r := by
  intro r
  induction r with
  | zero =>
    intro idx infoList meta out h
    have : meta = out := Option.some.inj h
    rw [← this]
    omega
  | succ n ih =>
    intro idx infoList meta out h
    simp only [commitLoopAux] at h
    cases hg : commitList.get? idx with
    | none =>
      rw [hg] at h
      exact Option.noConfusion h
    | some ref =>
      rw [hg] at h
      cases ref with
      | sentinel =>
        have := ih (idx + 1) infoList (meta ++ [infoList]) out h
        rw [this, List.length_append]
        simp
        omega
      | commit c =>
        have := ih (idx + 1) (commitFragment outputType c)
          (meta ++ [commitFragment outputType c]) out h
        rw [this, List.length_append]
        simp
        omega

/-- Auxiliary: a completed aggregation loop emits exactly one row per
remaining iteration. -/
lemma aggLoop_ok_length (outputType : String)
    (cm im pm : List (List Field)) :
    ∀ (r idx : Nat) (acc rows : List (List Field)),
      aggLoop outputType cm im pm r idx acc = Except.ok rows →
      rows.length = acc.length + r := by
  intro r
  induction r with
  | zero =>
    intro idx acc rows h
    have : acc = rows := Except.ok.inj h
    rw [← this]
    omega
  | succ n ih =>
    intro idx acc rows h
    simp only [aggLoop] at h
    cases hrow : (if outputType = "pr" then aggRowPr cm im pm idx
        else aggRowCommit cm pm idx) with
    | none =>
      rw [hrow] at h
      exact Except.noConfusion h
    | some row =>
      rw [hrow] at h
      have := ih (idx + 1) (acc ++ [row]) rows h
      rw [this, List.length_append]
      simp
      omega

/-- C10: the fetch bound of every loop is the fixed constant `RATE_LIMIT = 5`
for every input: the PR extractor always yields 5 fragments and 5 commit
references, the issue extractor always yields 5 fragments, a completed commit
extraction yields 5 fragments, and a successful aggregation emits exactly 5
data rows. -/
theorem c10_fetch_bound_five :
    RATE_LIMIT = 5 ∧
    (∀ (prList : Nat → PR) (outputType : String),
      (getPRInfo prList outputType).1.length = RATE_LIMIT ∧
      (getPRInfo prList outputType).2.length = RATE_LIMIT) ∧
    (∀ issueList : Nat → Issue,
      (getIssueInfo issueList).length = RATE_LIMIT) ∧
    (∀ (commitList : List CommitRef) (outputType : String)
       (meta : List (List Field)),
      getCommitInfo commitList outputType = some meta →
      meta.length = RATE_LIMIT) ∧
    (∀ (outputType : String) (cm im pm rows : List (List Field)),
      aggregateRows outputType cm im pm = Except.ok rows →
      rows.length = RATE_LIMIT) := by
  refine ⟨rfl, ?_, ?_, ?_, ?_⟩
  · intro prList outputType
    have := prLoopAux_lengths prList outputType RATE_LIMIT 0
      CommitRef.sentinel [] []
    simpa [getPRInfo] using this
  · intro issueList
    have := issueLoopAux_length issueList RATE_LIMIT 0 0 []
    simpa [getIssueInfo] using this
  · intro commitList outputType meta h
    have := commitLoopAux_length commitList outputType RATE_LIMIT 0 [] [] meta h
    simpa using this
  · intro outputType cm im pm rows h
    have := aggLoop_ok_length outputType cm im pm RATE_LIMIT 0 [] rows h
    simpa using this

/-- C10 witness: the conditional parts of the fetch-bound theorem applied to
a concrete successful run. -/
theorem c10_fetch_bound_five_witness :
    (∃ meta, getCommitInfo ((getPRInfo exPrListStale "pr").2) "pr" = some meta ∧
      meta.length = RATE_LIMIT) ∧
    (∃ rows, aggregateRows "pr"
        ((getCommitInfo ((getPRInfo exPrListStale "pr").2) "pr").getD [])
        (getIssueInfo exIssueListSticky)
        ((getPRInfo exPrListStale "pr").1) = Except.ok rows ∧
      rows.length = RATE_LIMIT) :=
  ⟨⟨_, rfl, c10_fetch_bound_five.2.2.2.1 ((getPRInfo exPrListStale "pr").2)
      "pr" _ rfl⟩,
   ⟨_, rfl, c10_fetch_bound_five.2.2.2.2 "pr"
      ((getCommitInfo ((getPRInfo exPrListStale "pr").2) "pr").getD [])
      (getIssueInfo exIssueListSticky)
      ((getPRInfo exPrListStale "pr").1) _ rfl⟩⟩

/-! ### C6: the shape and order of "pr" mode data rows -/

/-- The most recent commit of a PR (its last commit), defaulting for the
empty case that the closed forms below exclude by hypothesis. -/
def lastCommitD (pr : PR) : Commit :=
  pr.commits.getLast?.getD default

/-- Closed form of the loop-carried `isPR` value at index `i` when the issue
loop starts from its initial state: 1 exactly when some issue at an index
`≤ i` has a pull-request link. -/
def issueFlagClosed (issueList : Nat → Issue) (i : Nat) : Int :=
  if (List.range (i + 1)).any (fun j => (issueList j).hasPullRequest) then 1
  else 0

/-- Closed form of issue fragment `i`. -/
def issueFragClosed (issueList : Nat → Issue) (i : Nat) : List Field :=
  issueFragment (issueList i) (issueFlagClosed issueList i)

/-- The data row the code writes at index `i` of a "pr" mode run in which
every PR has at least one commit, expressed through the record fields.
Positions 0-5 and 11-13 hold the values the header names there; positions
6-10 hold PR title, PR body, PR comment count, issue comment count and PR
author — a cyclic shift of the header order `PR_Author, PR_Title, PR_Body,
PR_Comments, Issue_Comments`; position 14 holds the loop-carried flag. -/
def prRowClosed (prList : Nat → PR) (issueList : Nat → Issue) (i : Nat) :
    List Field :=
  [Field.int (prList i).number,
   Field.str (issueList i).closedAt,
   Field.str (issueList i).userName,
   Field.str (issueList i).title,
   Field.str (quoteBody (issueList i).body),
   Field.str (prList i).closedAt,
   Field.str (prList i).title,
   Field.str (quoteBody (prList i).body),
   Field.str (serializeCommentCount (prList i).comments),
   Field.str (serializeCommentCount (issueList i).comments),
   Field.str (prList i).userLogin,
   Field.str (lastCommitD (prList i)).authorName,
   Field.str (lastCommitD (prList i)).authorDate,
   Field.str ("\"" ++ (lastCommitD (prList i)).message ++ "\""),
   Field.int (issueFlagClosed issueList i)]

/-- Auxiliary: closed form of the PR loop when every visited PR has at least
one commit. -/
lemma prLoopAux_closed (prList : Nat → PR) (outputType : String) :
    ∀ (r idx : Nat) (mrc : CommitRef) (prMeta : List (List Field))
      (commitsList : List CommitRef),
      (∀ j, idx ≤ j → j < idx + r → (prList j).commits ≠ []) →
      prLoopAux prList outputType r idx mrc prMeta commitsList =
        (prMeta ++ (List.range' idx r).map
            (fun i => prFragment outputType (prList i)),
         commitsList ++ (List.range' idx r).map
            (fun i => CommitRef.commit (lastCommitD (prList i)))) := by
  intro r
  induction r with
  | zero =>
    intro idx mrc prMeta commitsList _
    simp [prLoopAux]
  | succ n ih =>
    intro idx mrc prMeta commitsList h
    simp only [prLoopAux]
    have hne : (prList idx).commits ≠ [] := h idx (Nat.le_refl _) (by omega)
    have hmrc : updateMostRecent mrc (prList idx) =
        CommitRef.commit (lastCommitD (prList idx)) := by
      unfold updateMostRecent lastCommitD
      cases hg : (prList idx).commits.getLast? with
      | none => exact absurd (List.getLast?_eq_none_iff.mp hg) hne
      | some c => simp [hg]
    rw [hmrc]
    rw [ih (idx + 1) (CommitRef.commit (lastCommitD (prList idx)))
      (prMeta ++ [prFragment outputType (prList idx)])
      (commitsList ++ [CommitRef.commit (lastCommitD (prList idx))])
      (fun j hj1 hj2 => h j (by omega) (by omega))]
    rw [List.range'_succ]
    simp [List.append_assoc]

/-- Auxiliary: closed form of the commit loop over a sequence of present
commit references. -/
lemma commitLoopAux_closed (commitList : List CommitRef) (outputType : String)
    (g : Nat → Commit) :
    ∀ (r idx : Nat) (infoList : List Field) (meta : List (List Field)),
      (∀ j, idx ≤ j → j < idx + r →
        commitList.get? j = some (CommitRef.commit (g j))) →
      commitLoopAux commitList outputType r idx infoList meta =
        some (meta ++ (List.range' idx r).map
          (fun i => commitFragment outputType (g i))) := by
  intro r
  induction r with
  | zero =>
    intro idx infoList meta _
    simp [commitLoopAux]
  | succ n ih =>
    intro idx infoList meta h
    have hidx : commitList.get? idx = some (CommitRef.commit (g idx)) :=
      h idx (Nat.le_refl _) (by omega)
    simp only [commitLoopAux, hidx]
    rw [ih (idx + 1) (commitFragment outputType (g idx))
      (meta ++ [commitFragment outputType (g idx)])
      (fun j hj1 hj2 => h j (by omega) (by omega))]
    rw [List.range'_succ]
    simp [List.append_assoc]

/-- Auxiliary: closed form of the issue loop, with the loop-carried flag
characterized by `issueFlagClosed`. -/
lemma issueLoopAux_closed (issueList : Nat → Issue) :
    ∀ (r idx : Nat) (isPRVal : Int) (meta : List (List Field)),
      isPRVal = (if (List.range idx).any
          (fun j => (issueList j).hasPullRequest) then 1 else 0) →
      issueLoopAux issueList r idx isPRVal meta =
        meta ++ (List.range' idx r).map (issueFragClosed issueList) := by
  intro r
  induction r with
  | zero =>
    intro idx isPRVal meta _
    simp [issueLoopAux]
  | succ n ih =>
    intro idx isPRVal meta hv
    simp only [issueLoopAux]
    have hflag : (if (issueList idx).hasPullRequest = true then (1 : Int)
        else isPRVal) = issueFlagClosed issueList idx := by
      unfold issueFlagClosed
      rw [hv, List.range_succ, List.any_append]
      cases hpr : (issueList idx).hasPullRequest <;> simp [hpr]
    rw [hflag]
    rw [ih (idx + 1) (issueFlagClosed issueList idx)
      (meta ++ [issueFragment (issueList idx) (issueFlagClosed issueList idx)])
      rfl]
    rw [List.range'_succ]
    simp [issueFragClosed, List.append_assoc]

/-- Auxiliary: one unfolding of the aggregation loop in "pr" mode. -/
lemma aggLoop_pr_step (cm im pm : List (List Field)) (n idx : Nat)
    (acc : List (List Field)) :
    aggLoop "pr" cm im pm (n + 1) idx acc =
      match aggRowPr cm im pm idx with
      | none => Except.error RunError.indexError
      | some row => aggLoop "pr" cm im pm n (idx + 1) (acc ++ [row]) := rfl

/-- Auxiliary: the "pr" row built at an in-range index from the three
closed-form fragment sequences. -/
lemma aggRowPr_closed (prList : Nat → PR) (issueList : Nat → Issue)
    (idx : Nat) (hidx : idx < RATE_LIMIT) :
    aggRowPr
      ((List.range RATE_LIMIT).map
        (fun i => commitFragment "pr" (lastCommitD (prList i))))
      ((List.range RATE_LIMIT).map (issueFragClosed issueList))
      ((List.range RATE_LIMIT).map (fun i => prFragment "pr" (prList i)))
      idx = some (prRowClosed prList issueList idx) := by
  have hrg : (List.range RATE_LIMIT)[idx]? = some idx :=
    List.getElem?_range hidx
  simp [aggRowPr, hrg, prRowClosed, issueFragClosed, issueFragment,
    prFragment, commitFragment, seqCells]

/-- Auxiliary: closed form of the "pr" aggregation loop over the three
closed-form fragment sequences. -/
lemma aggLoopPr_closed (prList : Nat → PR) (issueList : Nat → Issue) :
    ∀ (r idx : Nat) (acc : List (List Field)),
      idx + r ≤ RATE_LIMIT →
      aggLoop "pr"
        ((List.range RATE_LIMIT).map
          (fun i => commitFragment "pr" (lastCommitD (prList i))))
        ((List.range RATE_LIMIT).map (issueFragClosed issueList))
        ((List.range RATE_LIMIT).map (fun i => prFragment "pr" (prList i)))
        r idx acc =
      Except.ok (acc ++ (List.range' idx r).map
        (prRowClosed prList issueList)) := by
  intro r
  induction r with
  | zero =>
    intro idx acc _
    simp [aggLoop]
  | succ n ih =>
    intro idx acc h
    have hrow := aggRowPr_closed prList issueList idx (by omega)
    rw [aggLoop_pr_step]
    simp only [hrow]
    rw [ih (idx + 1) (acc ++ [prRowClosed prList issueList idx]) (by omega)]
    rw [List.range'_succ]
    simp [List.append_assoc]

/-- C6 counterexample: the claim says each "pr" mode data-row field holds
the value named by the 15-column schema position, matching the header.  In
a concrete successful run the cell under header position 6 (`PR_Author`) is
the PR's *title*, not its author login. -/
theorem c6_header_mismatch_counterexample :
    ∃ rows, writeCsvOutput "pr" exPrListStale exIssueListSticky =
        Except.ok (PR_COL_NAMES, rows) ∧
      PR_COL_NAMES.get? 6 = some ("PR_Author") ∧
      Option.bind (rows.get? 0) (fun row => row.get? 6) =
        some (Field.str (exPrWithCommit.title)) ∧
      Option.bind (rows.get? 0) (fun row => row.get? 6) ≠
        some (Field.str (exPrWithCommit.userLogin)) :=
  ⟨_, rfl, rfl, rfl, by decide⟩

/-- C6 (amended): in a "pr" mode run in which every PR has a commit, the
output is the `PR_COL_NAMES` header plus exactly `RATE_LIMIT` data rows of
exactly 15 fields; positions 1-6 and 12-14 (1-based) hold the header-named
values (PR number, the issue fields of issue `i`, the PR closed date, and
the most recent commit's author, date and message), but positions 7-11 hold
PR title, PR body, PR comment count, issue comment count and PR author — a
cyclic shift of the header's `PR_Author, PR_Title, PR_Body, PR_Comments,
Issue_Comments` — and position 15 holds the loop-carried `isPR` flag. -/
theorem c6_pr_row_order (prList : Nat → PR) (issueList : Nat → Issue)
    (h : ∀ i, i < RATE_LIMIT → (prList i).commits ≠ []) :
    writeCsvOutput "pr" prList issueList =
      Except.ok (PR_COL_NAMES,
        (List.range RATE_LIMIT).map (prRowClosed prList issueList)) ∧
    PR_COL_NAMES.length = 15 ∧
    ∀ i, (prRowClosed prList issueList i).length = 15 := by
  refine ⟨?_, rfl, fun i => rfl⟩
  have h1 : getPRInfo prList "pr" =
      ((List.range RATE_LIMIT).map (fun i => prFragment "pr" (prList i)),
       (List.range RATE_LIMIT).map
         (fun i => CommitRef.commit (lastCommitD (prList i)))) := by
    unfold getPRInfo
    rw [prLoopAux_closed prList "pr" RATE_LIMIT 0 CommitRef.sentinel [] []
      (fun j hj1 hj2 => h j (by omega))]
    simp [List.range_eq_range']
  have h2 : getCommitInfo
      ((List.range RATE_LIMIT).map
        (fun i => CommitRef.commit (lastCommitD (prList i)))) "pr" =
      some ((List.range RATE_LIMIT).map
        (fun i => commitFragment "pr" (lastCommitD (prList i)))) := by
    unfold getCommitInfo
    rw [commitLoopAux_closed _ "pr" (fun i => lastCommitD (prList i))
      RATE_LIMIT 0 [] []
      (fun j hj1 hj2 => by
        rw [List.get?_map, List.get?_range (by omega : j < RATE_LIMIT)]
        rfl)]
    simp [List.range_eq_range']
  have h3 : getIssueInfo issueList =
      (List.range RATE_LIMIT).map (issueFragClosed issueList) := by
    unfold getIssueInfo
    rw [issueLoopAux_closed issueList RATE_LIMIT 0 0 [] rfl]
    simp [List.range_eq_range']
  have h4 : aggregateRows "pr"
      ((List.range RATE_LIMIT).map
        (fun i => commitFragment "pr" (lastCommitD (prList i))))
      ((List.range RATE_LIMIT).map (issueFragClosed issueList))
      ((List.range RATE_LIMIT).map (fun i => prFragment "pr" (prList i))) =
      Except.ok ((List.range RATE_LIMIT).map
        (prRowClosed prList issueList)) := by
    unfold aggregateRows
    rw [aggLoopPr_closed prList issueList RATE_LIMIT 0 [] (by omega)]
    simp [List.range_eq_range']
  simp [writeCsvOutput, h1, h2, h3, h4, labelCols]

/-- A PR stream in which every PR has a commit. -/
def exPrListAllCommits : Nat → PR :=
  fun _ => exPrWithCommit

/-- C6 witness: the amended row-order theorem applied to a concrete run in
which every PR has a commit. -/
theorem c6_pr_row_order_witness :
    writeCsvOutput "pr" exPrListAllCommits exIssueListSticky =
      Except.ok (PR_COL_NAMES,
        (List.range RATE_LIMIT).map
          (prRowClosed exPrListAllCommits exIssueListSticky)) :=
  (c6_pr_row_order exPrListAllCommits exIssueListSticky (by decide)).1

end Extractor
